import Mathlib

/-!
Verification development for the c10d NCCL process-group backend
(ProcessGroupNCCL.cpp). The definitions below are a shallow embedding of
the source file: pure helpers become Lean functions, the stateful
process-group operations become explicit state-passing functions, and
thrown std::runtime_error exceptions become error results. Device-side
effects (CUDA events, streams, NCCL kernels) are modelled by the data the
code passes to them.
-/

namespace C10d

/-! ## Decimal rendering (embedding of std::to_string on non-negative values)

`std::to_string` renders an integer in decimal. Device indices and
counters in the source are non-negative in every reachable use, so the
Nat case is primary; `intToString` extends to negative values with a
leading minus sign, as std::to_string does.
The recursion is expressed with a fuel parameter (fuel `n + 1` always
suffices) so that the definition is structurally recursive and reduces
by evaluation. -/

def digitChar : Nat → Char
  | 0 => '0'
  | 1 => '1'
  | 2 => '2'
  | 3 => '3'
  | 4 => '4'
  | 5 => '5'
  | 6 => '6'
  | 7 => '7'
  | 8 => '8'
  | 9 => '9'
  | _ => '*'

def toDecimalAux : Nat → Nat → List Char
  | 0, _ => []
  | fuel + 1, n =>
    if n < 10 then [digitChar n]
    else toDecimalAux fuel (n / 10) ++ [digitChar (n % 10)]

/-- Decimal digit list of a natural number, most significant digit first. -/
def toDecimal (n : Nat) : List Char := toDecimalAux (n + 1) n

/-- Embedding of `std::to_string` on a non-negative value. -/
def natToString (n : Nat) : String := String.mk (toDecimal n)

/-- Embedding of `std::to_string` on a (possibly negative) integer. -/
def intToString (i : Int) : String :=
  if i < 0 then String.mk ('-' :: toDecimal i.natAbs)
  else String.mk (toDecimal i.toNat)

/-! ## getKeyFromDevices (source lines 42-52)

The loop builds the comma-separated decimal device list, starting from
the empty string and testing emptiness at each step exactly as the C++
loop does. -/

def getKeyFromDevicesAux (acc : String) : List Nat → String
  | [] => acc
  | device :: rest =>
    getKeyFromDevicesAux
      (if acc = "" then natToString device else acc ++ "," ++ natToString device)
      rest

/-- Embedding of `getKeyFromDevices`: the deviceList key string. -/
def getKeyFromDevices (devices : List Nat) : String :=
  getKeyFromDevicesAux "" devices

/-- Character-list view of the key of a non-empty tail, used in proofs. -/
def keyTail : List Nat → List Char
  | [] => []
  | device :: rest => ',' :: (toDecimal device ++ keyTail rest)

/-- Character-list view of the whole key. -/
def keyData : List Nat → List Char
  | [] => []
  | device :: rest => toDecimal device ++ keyTail rest

/-- Value of a decimal digit character; inverse direction of `digitChar`. -/
def charVal (c : Char) : Nat :=
  if c = '0' then 0 else if c = '1' then 1 else if c = '2' then 2
  else if c = '3' then 3 else if c = '4' then 4 else if c = '5' then 5
  else if c = '6' then 6 else if c = '7' then 7 else if c = '8' then 8
  else 9

def ofDecimal (l : List Char) : Nat :=
  l.foldl (fun acc c => 10 * acc + charVal c) 0


/-! ## NCCL op and data-type tables (source lines 14-39) -/

inductive ReduceOp
  | MIN
  | MAX
  | SUM
  | PRODUCT
deriving DecidableEq, Repr

inductive NcclRedOp
  | ncclMin
  | ncclMax
  | ncclSum
  | ncclProd
deriving DecidableEq, Repr

/-- The `ncclOp` table; it contains every `ReduceOp`, so it is total. -/
def ncclOp : ReduceOp → NcclRedOp
  | .MIN => .ncclMin
  | .MAX => .ncclMax
  | .SUM => .ncclSum
  | .PRODUCT => .ncclProd

/-- The scalar types a tensor can carry; `kShort` is an example of a type
absent from the `ncclDataType` table. -/
inductive ScalarType
  | kChar
  | kByte
  | kFloat
  | kDouble
  | kInt
  | kLong
  | kHalf
  | kShort
deriving DecidableEq, Repr

inductive NcclDataType
  | ncclInt8
  | ncclUint8
  | ncclFloat
  | ncclDouble
  | ncclInt32
  | ncclInt64
  | ncclHalf
deriving DecidableEq, Repr

/-- The `ncclDataType` lookup table (`.at` throws on a missing key). -/
def ncclDataTypeMap : ScalarType → Option NcclDataType
  | .kChar => some .ncclInt8
  | .kByte => some .ncclUint8
  | .kFloat => some .ncclFloat
  | .kDouble => some .ncclDouble
  | .kInt => some .ncclInt32
  | .kLong => some .ncclInt64
  | .kHalf => some .ncclHalf
  | .kShort => none

/-- Embedding of `getNcclDataType` (source lines 33-39). -/
def getNcclDataType (t : ScalarType) : Except String NcclDataType :=
  match ncclDataTypeMap t with
  | some d => .ok d
  | none => .error "Unsupported data type for NCCL process group"

/-! ## Tensors

A tensor is reduced to the fields `tensorCheckHelper`, `allreduce` and
`broadcast` actually read: element count, scalar type, residency and
layout flags, device index, and data pointer. -/

structure Tensor where
  numel : Nat
  scalarType : ScalarType
  is_cuda : Bool
  is_sparse : Bool
  is_contiguous : Bool
  get_device : Nat
  data_ptr : Nat
deriving DecidableEq, Repr

/-! ## tensorCheckHelper (source lines 275-349)

Each thrown `std::runtime_error` message, exactly as in the source
(adjacent C++ string literals concatenated). -/

def msgLen : String :=
  "Input tensor sequence should have the same number of tensors as the output tensor sequence"

def msgZero : String :=
  "The number of input tensors should not be zero"

def msgNumDev : String :=
  "The number of input tensors is larger than the number of available GPUs"

def msgCudaDense : String :=
  "Only CUDA dense tensor is supported for NCCL collective operations"

def msgType : String :=
  "Expecting all GPU tensors to have identical type"

def msgInNumel : String :=
  "Expecting all input tensors to have identical number of elements"

def msgOutNumel : String :=
  "The number of elements of output tensor does not match the number of elements of the input tensor"

def msgContig : String :=
  "Expecting all GPU tensors to be contiguous"

def msgDupDev : String :=
  "Expecting inputs on different GPU devices"

def msgDevMismatch : String :=
  "Expecting input and output tensors to be on the same device"

/-- The per-index loop of `tensorCheckHelper` (source lines 302-348).
`usedDevices` plays the role of the `usedDevices` unordered_set: only
membership is ever consulted, so a list suffices. -/
def tensorCheckLoop (inputNumElement : Nat) (elementType : ScalarType)
    (outputOverInput : Nat) :
    List Nat → List (Tensor × Tensor) → Except String Unit
  | _, [] => .ok ()
  | usedDevices, (inp, outp) :: rest =>
    if !(inp.is_cuda && !inp.is_sparse && outp.is_cuda && !outp.is_sparse) then
      .error msgCudaDense
    else if inp.scalarType ≠ elementType ∨ outp.scalarType ≠ elementType then
      .error msgType
    else if inp.numel ≠ inputNumElement then
      .error msgInNumel
    else if outp.numel ≠ inputNumElement * outputOverInput then
      .error msgOutNumel
    else if !inp.is_contiguous || !outp.is_contiguous then
      .error msgContig
    else if inp.get_device ∈ usedDevices then
      .error msgDupDev
    else if inp.get_device ≠ outp.get_device then
      .error msgDevMismatch
    else
      tensorCheckLoop inputNumElement elementType outputOverInput
        (inp.get_device :: usedDevices) rest

/-- Embedding of `tensorCheckHelper`. `numDevices` is
`thcState_->numDevices` (the locally visible GPU count); the zero check
of the source is the empty-list case of the match. -/
def tensorCheckHelper (numDevices : Nat) (input output : List Tensor)
    (outputOverInput : Nat) : Except String Unit :=
  if input.length ≠ output.length then .error msgLen
  else
    match input with
    | [] => .error msgZero
    | inp0 :: _ =>
      if input.length > numDevices then .error msgNumDev
      else
        tensorCheckLoop inp0.numel inp0.scalarType outputOverInput []
          (input.zip output)

/-! ### Specification-ordered view of the checks (section 4.4 of the spec)

The spec states the checks as an ordered list, each with its own error,
the first violated one determining the error raised. The functions below
collect, in the specified order, every violated check: three
sequence-level checks first, then for each buffer pair in sequence
order the seven per-buffer checks, the duplicate-device check comparing
against all devices of earlier inputs. -/

def bufferChecks (inputNumElement : Nat) (elementType : ScalarType)
    (outputOverInput : Nat) (priorDevices : List Nat) (inp outp : Tensor) :
    List String :=
  (if !(inp.is_cuda && !inp.is_sparse && outp.is_cuda && !outp.is_sparse) then
    [msgCudaDense] else []) ++
  (if inp.scalarType ≠ elementType ∨ outp.scalarType ≠ elementType then
    [msgType] else []) ++
  (if inp.numel ≠ inputNumElement then [msgInNumel] else []) ++
  (if outp.numel ≠ inputNumElement * outputOverInput then [msgOutNumel] else []) ++
  (if !inp.is_contiguous || !outp.is_contiguous then [msgContig] else []) ++
  (if inp.get_device ∈ priorDevices then [msgDupDev] else []) ++
  (if inp.get_device ≠ outp.get_device then [msgDevMismatch] else [])

def pairChecks (inputNumElement : Nat) (elementType : ScalarType)
    (outputOverInput : Nat) :
    List Nat → List (Tensor × Tensor) → List String
  | _, [] => []
  | priorDevices, (inp, outp) :: rest =>
    bufferChecks inputNumElement elementType outputOverInput priorDevices inp outp ++
      pairChecks inputNumElement elementType outputOverInput
        (priorDevices ++ [inp.get_device]) rest

def sequenceChecks (numDevices : Nat) (input output : List Tensor) : List String :=
  (if input.length ≠ output.length then [msgLen] else []) ++
  (if input.length = 0 then [msgZero] else []) ++
  (if input.length > numDevices then [msgNumDev] else [])

def violatedChecks (numDevices : Nat) (input output : List Tensor)
    (outputOverInput : Nat) : List String :=
  sequenceChecks numDevices input output ++
    match input with
    | [] => []
    | inp0 :: _ =>
      pairChecks inp0.numel inp0.scalarType outputOverInput [] (input.zip output)

/-- The validator as the spec describes it: the first violated check, in
the specified order, determines the error raised; no violation means
success. -/
def tensorCheckSpec (numDevices : Nat) (input output : List Tensor)
    (outputOverInput : Nat) : Except String Unit :=
  match (violatedChecks numDevices input output outputOverInput).head? with
  | some msg => .error msg
  | none => .ok ()

/-! ## Communicators, streams, events -/

/-- An established NCCL communicator records the participant count, the
participant rank and the unique id it was created from
(`NCCLComm::create(numRanks, rank, ncclID)`). -/
structure NCCLComm where
  numRanks : Nat
  rank : Nat
  ncclID : List Nat
deriving DecidableEq, Repr

def NCCLComm.create (numRanks rank : Nat) (ncclID : List Nat) : NCCLComm :=
  ⟨numRanks, rank, ncclID⟩

/-- A dedicated CUDA stream, recorded with the device it was created on. -/
structure CUDAStream where
  device : Nat
deriving DecidableEq, Repr

/-- A CUDA event, recorded with the device it was created on. -/
structure CUDAEvent where
  device : Nat
deriving DecidableEq, Repr

/-! ## Rendezvous token exchange (broadcastUniqueNCCLID, source lines 174-207) -/

/-- `NCCL_UNIQUE_ID_BYTES` from nccl.h (outside src): the fixed token
size. Its exact value is irrelevant to every claim; 128 is the real one. -/
def NCCL_UNIQUE_ID_BYTES : Nat := 128

/-- Association-list lookup, the observable behaviour of the store and of
the `std::unordered_map` caches. -/
def alookup {α : Type} : List (String × α) → String → Option α
  | [], _ => none
  | (k, v) :: rest, key => if k = key then some v else alookup rest key

/-- Insertion used by `emplace` / `store_->set` (always called with a key
that is absent). -/
def ainsert {α : Type} (m : List (String × α)) (k : String) (v : α) :
    List (String × α) :=
  m ++ [(k, v)]

/-- The store key built from the group id and the sequence number,
`processGroupID_ + "_" + std::to_string(uniqueNCCLIDCnt)`. -/
def storeKeyOf (processGroupID : String) (uniqueNCCLIDCnt : Int) : String :=
  processGroupID ++ "_" ++ intToString uniqueNCCLIDCnt

/-- What one call of `broadcastUniqueNCCLID` does at the store. A `get`
on a key the store does not hold yet blocks across process boundaries;
that situation is `blocked`. -/
inductive BCastOutcome
  | setToken (store : List (String × List Nat)) (id : List Nat)
  | gotToken (id : List Nat)
  | lengthError
  | blocked
deriving DecidableEq, Repr

/-- Embedding of `broadcastUniqueNCCLID`. `cnt` is the group's entry of
`pgUniqueNCCLIDCnt_` before the call (read-modify-write under the global
lock); the result carries the incremented counter, the store key used,
and the store interaction. The single-process model sequentialises the
lock-protected region. -/
def broadcastUniqueNCCLID (rank : Nat) (processGroupID : String) (cnt : Int)
    (store : List (String × List Nat)) (ncclID : List Nat) :
    Int × String × BCastOutcome :=
  let uniqueNCCLIDCnt := cnt + 1
  let storeKey := storeKeyOf processGroupID uniqueNCCLIDCnt
  if rank = 0 then
    (uniqueNCCLIDCnt, storeKey, .setToken (ainsert store storeKey ncclID) ncclID)
  else
    match alookup store storeKey with
    | none => (uniqueNCCLIDCnt, storeKey, .blocked)
    | some v =>
      if v.length ≠ NCCL_UNIQUE_ID_BYTES then (uniqueNCCLIDCnt, storeKey, .lengthError)
      else (uniqueNCCLIDCnt, storeKey, .gotToken v)

/-! ## Communicator cache (getNCCLComm, source lines 209-272) -/

/-- Per-process-group mutable state: the three key-indexed caches, the
group's `pgUniqueNCCLIDCnt_` entry, and the (external) store contents. -/
structure PGState where
  devNCCLCommMap : List (String × List NCCLComm)
  ncclStreams : List (String × List CUDAStream)
  ncclEvents : List (String × List CUDAEvent)
  uniqueNCCLIDCnt : Int
  store : List (String × List Nat)
deriving DecidableEq, Repr

/-- Immutable per-group configuration: rank, size, visible device count,
group id string, the token rank 0 generates (`ncclGetUniqueId`), and the
initial contents of the id buffer on the other ranks (overwritten by the
exchange before use). -/
structure PGConfig where
  rank : Nat
  size : Nat
  numDevices : Nat
  processGroupID : String
  generatedID : List Nat
  uninitID : List Nat
deriving DecidableEq, Repr

/-- Result of an operation that can return, throw, or block forever on
the store. -/
inductive CallResult (α : Type)
  | ok (val : α)
  | err (msg : String)
  | blocked
deriving DecidableEq, Repr

/-- The cache-miss tail of `getNCCLComm` (source lines 222-271): build
one communicator, stream and event per device — the i-th communicator
with participant count `size * devices.length` and participant rank
`rank * devices.length + i` — and move them into the caches. -/
def finishCreate (pg : PGConfig) (s : PGState) (devicesKey : String)
    (devices : List Nat) (cnt : Int) (store : List (String × List Nat))
    (ncclID : List Nat) : CallResult (PGState × List NCCLComm) :=
  let n := devices.length
  let ncclComms := (List.range n).map fun i =>
    NCCLComm.create (pg.size * n) (pg.rank * n + i) ncclID
  let streamVal := devices.map fun d => CUDAStream.mk d
  let eventVal := devices.map fun d => CUDAEvent.mk d
  .ok
    ({ devNCCLCommMap := ainsert s.devNCCLCommMap devicesKey ncclComms,
       ncclStreams := ainsert s.ncclStreams devicesKey streamVal,
       ncclEvents := ainsert s.ncclEvents devicesKey eventVal,
       uniqueNCCLIDCnt := cnt,
       store := store },
     ncclComms)

/-- Embedding of `getNCCLComm`: empty-key rejection, cache hit returning
the cached entry with the state untouched, cache miss running the token
exchange and `finishCreate`. -/
def getNCCLComm (pg : PGConfig) (s : PGState) (devicesKey : String)
    (devices : List Nat) : CallResult (PGState × List NCCLComm) :=
  if devicesKey = "" then
    .err "Not able to create/get the NCCL Communicator since the GPU devices are not known"
  else
    match alookup s.devNCCLCommMap devicesKey with
    | some cached => .ok (s, cached)
    | none =>
      match broadcastUniqueNCCLID pg.rank pg.processGroupID s.uniqueNCCLIDCnt
          s.store (if pg.rank = 0 then pg.generatedID else pg.uninitID) with
      | (cnt, _storeKey, outcome) =>
        match outcome with
        | .blocked => .blocked
        | .lengthError => .err "Unexpected NCCL unique ID length received from the store"
        | .setToken store id => finishCreate pg s devicesKey devices cnt store id
        | .gotToken id => finishCreate pg s devicesKey devices cnt s.store id

/-- State of a freshly constructed process group: empty caches, counter
`-1` (set by the constructor), and whatever the external store holds. -/
def initPGState (store : List (String × List Nat)) : PGState :=
  { devNCCLCommMap := [], ncclStreams := [], ncclEvents := [],
    uniqueNCCLIDCnt := -1, store := store }

/-- States of one process group reachable through the operations the
program performs: the constructor, then `getNCCLComm` calls whose key is
derived from the device list, exactly as `allreduce` and `broadcast`
call it. -/
inductive Reachable : PGState → Prop
  | init (store : List (String × List Nat)) : Reachable (initPGState store)
  | step {s s' : PGState} {pg : PGConfig} {devices : List Nat}
      {comms : List NCCLComm} :
      Reachable s →
      getNCCLComm pg s (getKeyFromDevices devices) devices = .ok (s', comms) →
      Reachable s'

/-! ## Work handle (WorkNCCL, source lines 85-149) -/

/-- A Work handle owns the device list of its collective; its
constructor creates one CUDA event per device. -/
structure WorkNCCL where
  devices : List Nat
deriving DecidableEq, Repr

/-- The events the `WorkNCCL` constructor creates, one per device. -/
def WorkNCCL.cudaEvents (w : WorkNCCL) : List CUDAEvent :=
  w.devices.map CUDAEvent.mk

/-- `isCompleted` (source lines 99-101): the NCCL kernels are already
queued once the Work exists, so the source returns `true`
unconditionally. -/
def WorkNCCL.isCompleted (_ : WorkNCCL) : Bool := true

/-- Result of `cudaEventQuery` on one event: `success`, `notReady`, or
any other error code (a genuine failure). -/
inductive EventStatus
  | success
  | notReady
  | failure (code : Nat)
deriving DecidableEq, Repr

/-- The query loop of `finishedGPUExecution`: a genuine failure is
raised through `C10D_CUDA_CHECK` (here: an `error` carrying the code), a
not-ready event makes the poll answer `false`, and only an all-ready
pass answers `true`. -/
def queryLoop (status : CUDAEvent → EventStatus) :
    List CUDAEvent → Except Nat Bool
  | [] => .ok true
  | e :: rest =>
    match status e with
    | .failure code => .error code
    | .notReady => .ok false
    | .success => queryLoop status rest

/-- Embedding of `finishedGPUExecution` (source lines 104-119), the
non-blocking poll over the work's events; `status` is the device
runtime's answer to `cudaEventQuery`. -/
def WorkNCCL.finishedGPUExecution (w : WorkNCCL)
    (status : CUDAEvent → EventStatus) : Except Nat Bool :=
  queryLoop status w.cudaEvents

/-- A device-side ordering edge inserted by `synchronize`: the THC
stream of `device` waits on `event`. -/
inductive SyncAction
  | streamWaitEvent (device : Nat) (event : CUDAEvent)
deriving DecidableEq, Repr

/-- Embedding of `synchronize` (source lines 128-138): per device, let
the THC stream wait on the work's event. It issues the edges and never
blocks the calling thread. -/
def WorkNCCL.synchronize (w : WorkNCCL) : List SyncAction :=
  (w.devices.zip w.cudaEvents).map fun p => SyncAction.streamWaitEvent p.1 p.2

/-- Embedding of `wait` (source lines 122-125): call `synchronize`, then
return `true`. -/
def WorkNCCL.wait (w : WorkNCCL) : List SyncAction × Bool :=
  (w.synchronize, true)

/-- `isSuccess` (source lines 140-142). -/
def WorkNCCL.isSuccess (_ : WorkNCCL) : Bool := true

/-- The `exception` accessor (source lines 144-149) always throws. -/
def WorkNCCL.exceptionAccessor (_ : WorkNCCL) : Except String Unit :=
  .error "exception() is not supported by NCCL process group work, since isSuccess() will always return true, and isCompleted() and wait() will either succeed or throw"

/-! ## Collectives (allreduce, source lines 351-399; broadcast, 401-450) -/

/-- Options of `allreduce`. -/
structure AllreduceOptions where
  reduceOp : ReduceOp
deriving DecidableEq, Repr

/-- Options of `broadcast`. -/
structure BroadcastOptions where
  rootRank : Nat
  rootTensor : Nat
deriving DecidableEq, Repr

/-- One `ncclAllReduce` call as issued by the dispatch loop. -/
structure AllReduceCall where
  sendbuff : Nat
  recvbuff : Nat
  count : Nat
  dataType : NcclDataType
  redOp : NcclRedOp
  comm : NCCLComm
  device : Nat
deriving DecidableEq, Repr

/-- One `ncclBcast` call as issued by the dispatch loop. -/
structure BcastCall where
  buff : Nat
  count : Nat
  dataType : NcclDataType
  root : Nat
  comm : NCCLComm
  device : Nat
deriving DecidableEq, Repr

/-- The per-device issue loop of `allreduce` (source lines 373-385):
`ncclAllReduce(tensors[i].data_ptr(), tensors[i].data_ptr(), ...)` on
the i-th communicator. -/
def buildAllReduceCalls (redOp : NcclRedOp) :
    List (Tensor × NCCLComm) → Except String (List AllReduceCall)
  | [] => .ok []
  | (t, c) :: rest =>
    match getNcclDataType t.scalarType with
    | .error e => .error e
    | .ok dt =>
      match buildAllReduceCalls redOp rest with
      | .error e => .error e
      | .ok calls =>
        .ok ({ sendbuff := t.data_ptr, recvbuff := t.data_ptr,
               count := t.numel, dataType := dt, redOp := redOp,
               comm := c, device := t.get_device } :: calls)

/-- The per-device issue loop of `broadcast` (source lines 423-436):
the root participant is `opts.rootRank * tensors.size() + opts.rootTensor`. -/
def buildBcastCalls (numTensors : Nat) (opts : BroadcastOptions) :
    List (Tensor × NCCLComm) → Except String (List BcastCall)
  | [] => .ok []
  | (t, c) :: rest =>
    match getNcclDataType t.scalarType with
    | .error e => .error e
    | .ok dt =>
      match buildBcastCalls numTensors opts rest with
      | .error e => .error e
      | .ok calls =>
        .ok ({ buff := t.data_ptr, count := t.numel, dataType := dt,
               root := opts.rootRank * numTensors + opts.rootTensor,
               comm := c, device := t.get_device } :: calls)

/-- Embedding of `getDevicesOfTensors` (source lines 55-61). -/
def getDevicesOfTensors (tensors : List Tensor) : List Nat :=
  tensors.map Tensor.get_device

/-- Embedding of `allreduce`: validate the tensor sequence against
itself with ratio 1, resolve the communicator set for the derived key,
and issue one in-place `ncclAllReduce` per tensor. The syncStreams
pre-phase and the post-phase event records act only on the device and
are represented by the returned Work handle owning one event per
device.

Modelled from the spec: the defaulted `outputOverInput` argument of
`tensorCheckHelper` (declared in ProcessGroupNCCL.hpp, which is not in
src) is 1, the ratio the spec gives for all-reduce and broadcast. -/
def allreduce (pg : PGConfig) (s : PGState) (tensors : List Tensor)
    (opts : AllreduceOptions) :
    CallResult (PGState × List AllReduceCall × WorkNCCL) :=
  match tensorCheckHelper pg.numDevices tensors tensors 1 with
  | .error e => .err e
  | .ok () =>
    let devices := getDevicesOfTensors tensors
    let key := getKeyFromDevices devices
    match getNCCLComm pg s key devices with
    | .blocked => .blocked
    | .err e => .err e
    | .ok (s', ncclComms) =>
      let work := WorkNCCL.mk devices
      match buildAllReduceCalls (ncclOp opts.reduceOp) (tensors.zip ncclComms) with
      | .error e => .err e
      | .ok calls => .ok (s', calls, work)

/-- Embedding of `broadcast`, structured exactly like `allreduce` with
the `ncclBcast` loop. -/
def broadcast (pg : PGConfig) (s : PGState) (tensors : List Tensor)
    (opts : BroadcastOptions) :
    CallResult (PGState × List BcastCall × WorkNCCL) :=
  match tensorCheckHelper pg.numDevices tensors tensors 1 with
  | .error e => .err e
  | .ok () =>
    let devices := getDevicesOfTensors tensors
    let key := getKeyFromDevices devices
    match getNCCLComm pg s key devices with
    | .blocked => .blocked
    | .err e => .err e
    | .ok (s', ncclComms) =>
      let work := WorkNCCL.mk devices
      match buildBcastCalls tensors.length opts (tensors.zip ncclComms) with
      | .error e => .err e
      | .ok calls => .ok (s', calls, work)

/-! ## Process-wide group tracking (source lines 151-172) -/

/-- The process-wide statics: `processGroupCounter_` and
`pgUniqueNCCLIDCnt_`, both guarded by `pgTrackingLock_`. -/
structure GlobalState where
  processGroupCounter : Int
  pgUniqueNCCLIDCnt : List (Int × Int)
deriving DecidableEq, Repr

/-- Initial values of the statics (`processGroupCounter_ = -1`, empty
registry). -/
def initGlobalState : GlobalState :=
  { processGroupCounter := -1, pgUniqueNCCLIDCnt := [] }

/-- The constructor body under the tracking lock: increment the counter,
register the new group with sequence counter `-1`, and take the new
counter value as the group id (`processGroupID_` is its decimal
rendering). -/
def constructPG (g : GlobalState) : GlobalState × Int :=
  let c := g.processGroupCounter + 1
  ({ processGroupCounter := c,
     pgUniqueNCCLIDCnt := (c, -1) :: g.pgUniqueNCCLIDCnt }, c)

/-- The destructor body under the tracking lock: erase the group's
registry entry; the counter is not touched. -/
def destroyPG (g : GlobalState) (gid : Int) : GlobalState :=
  { g with pgUniqueNCCLIDCnt := g.pgUniqueNCCLIDCnt.filter (fun p => p.1 ≠ gid) }

/-- A construction/destruction event in one process. -/
inductive PGEvent
  | construct
  | destroy (gid : Int)
deriving DecidableEq, Repr

/-- Run a sequence of constructions and destructions from a state,
collecting the assigned group ids in construction order. -/
def runTrace : GlobalState → List PGEvent → GlobalState × List Int
  | g, [] => (g, [])
  | g, .construct :: rest =>
    let (g', gid) := constructPG g
    let (gf, ids) := runTrace g' rest
    (gf, gid :: ids)
  | g, .destroy gid :: rest => runTrace (destroyPG g gid) rest

/-! ## Auxiliary predicates and concrete fixtures -/

/-- A buffer pair that passes every per-buffer check of
`tensorCheckHelper` other than the device checks, relative to the first
input's element count `n0` and scalar type `t0` and the declared ratio
`r`. -/
def goodPair (n0 : Nat) (t0 : ScalarType) (r : Nat) (p : Tensor × Tensor) : Prop :=
  (p.1.is_cuda && !p.1.is_sparse && p.2.is_cuda && !p.2.is_sparse) = true ∧
  p.1.scalarType = t0 ∧ p.2.scalarType = t0 ∧
  p.1.numel = n0 ∧ p.2.numel = n0 * r ∧
  p.1.is_contiguous = true ∧ p.2.is_contiguous = true ∧
  p.1.get_device = p.2.get_device

instance (n0 : Nat) (t0 : ScalarType) (r : Nat) (p : Tensor × Tensor) :
    Decidable (goodPair n0 t0 r p) := by
  unfold goodPair
  infer_instance

/-- Well-formedness of the communicator cache: every entry was inserted
under the key derived from a non-empty device list of its length. -/
def cacheWF (s : PGState) : Prop :=
  ∀ kv ∈ s.devNCCLCommMap, ∃ devs : List Nat,
    devs ≠ [] ∧ kv.1 = getKeyFromDevices devs ∧ kv.2.length = devs.length

/-- Fixture: the token rank 0 generates in the concrete runs below. -/
def idW : List Nat := List.replicate NCCL_UNIQUE_ID_BYTES 7

/-- Fixture: a single-rank, single-device process group. -/
def pgW : PGConfig :=
  { rank := 0, size := 1, numDevices := 1, processGroupID := "0",
    generatedID := idW, uninitID := [] }

/-- Fixture: rank 1 of a two-rank group with two local devices. -/
def pgW2 : PGConfig :=
  { rank := 1, size := 2, numDevices := 2, processGroupID := "1",
    generatedID := [], uninitID := List.replicate NCCL_UNIQUE_ID_BYTES 0 }

/-- Fixture: the communicator `pgW` creates for its single device. -/
def commW : NCCLComm := NCCLComm.create 1 0 idW

/-- Fixture: the state of `pgW`'s group after one `getNCCLComm` call on
device list `[0]` starting from an empty store. -/
def s1W : PGState :=
  { devNCCLCommMap := [("0", [commW])],
    ncclStreams := [("0", [CUDAStream.mk 0])],
    ncclEvents := [("0", [CUDAEvent.mk 0])],
    uniqueNCCLIDCnt := 0,
    store := [("0_0", idW)] }

/-- Fixture: a dense contiguous CUDA float tensor on device 0. -/
def tValid0 : Tensor :=
  { numel := 4, scalarType := .kFloat, is_cuda := true, is_sparse := false,
    is_contiguous := true, get_device := 0, data_ptr := 100 }

/-- Fixture: another valid tensor on the same device 0. -/
def tValid0b : Tensor :=
  { numel := 4, scalarType := .kFloat, is_cuda := true, is_sparse := false,
    is_contiguous := true, get_device := 0, data_ptr := 200 }

/-- Fixture: a sparse tensor on device 0 (fails the dense check). -/
def tSparse0 : Tensor :=
  { numel := 4, scalarType := .kFloat, is_cuda := true, is_sparse := true,
    is_contiguous := true, get_device := 0, data_ptr := 300 }

/-- Fixture: the communicators `pgW2` creates for device list `[0, 1]`. -/
def commsW2 : List NCCLComm :=
  [NCCLComm.create 4 2 idW, NCCLComm.create 4 3 idW]

/-- Fixture: `pgW2`'s initial state with the rendezvous token already
published by rank 0 under the group's first sequence key. -/
def s0W2 : PGState := initPGState [("1_0", idW)]

/-- Fixture: `pgW2`'s state after creating the `[0, 1]` entry. -/
def s2W : PGState :=
  { devNCCLCommMap := [("0,1", commsW2)],
    ncclStreams := [("0,1", [CUDAStream.mk 0, CUDAStream.mk 1])],
    ncclEvents := [("0,1", [CUDAEvent.mk 0, CUDAEvent.mk 1])],
    uniqueNCCLIDCnt := 0,
    store := [("1_0", idW)] }

/-- Fixture: the broadcast call `pgW` issues for `tValid0` with root
rank 0 and root tensor index 0. -/
def bcCallW : BcastCall :=
  { buff := 100, count := 4, dataType := .ncclFloat, root := 0,
    comm := commW, device := 0 }

/-- Fixture: the allreduce call `pgW` issues for `tValid0` with SUM. -/
def arCallW : AllReduceCall :=
  { sendbuff := 100, recvbuff := 100, count := 4, dataType := .ncclFloat,
    redOp := .ncclSum, comm := commW, device := 0 }

/-! # Lemmas

All definitions above embed the source; everything below proves
properties about them. -/

/-! ### Facts about decimal rendering -/

theorem toDecimalAux_congr :
    ∀ f₁ f₂ n, n < f₁ → n < f₂ → toDecimalAux f₁ n = toDecimalAux f₂ n := by
  intro f₁
  induction f₁ with
  | zero => intro f₂ n h₁; omega
  | succ g ih =>
    intro f₂ n h₁ h₂
    match f₂ with
    | 0 => omega
    | h + 1 =>
      simp only [toDecimalAux]
      by_cases hn : n < 10
      · simp [hn]
      · have hdiv : n / 10 < n := Nat.div_lt_self (by omega) (by omega)
        rw [if_neg hn, if_neg hn]
        exact congrArg (· ++ [digitChar (n % 10)])
          (ih h (n / 10) (by omega) (by omega))

theorem toDecimal_eq (n : Nat) :
    toDecimal n =
      if n < 10 then [digitChar n]
      else toDecimal (n / 10) ++ [digitChar (n % 10)] := by
  show toDecimalAux (n + 1) n = _
  simp only [toDecimalAux]
  by_cases hn : n < 10
  · simp [hn]
  · have hdiv : n / 10 < n := Nat.div_lt_self (by omega) (by omega)
    rw [if_neg hn, if_neg hn,
      toDecimalAux_congr n (n / 10 + 1) (n / 10) (by omega) (by omega)]
    rfl

theorem toDecimal_ne_nil (n : Nat) : toDecimal n ≠ [] := by
  rw [toDecimal_eq]
  by_cases hn : n < 10 <;> simp [hn]

theorem mem_toDecimal_digit :
    ∀ n c, c ∈ toDecimal n →
      c ∈ ['0', '1', '2', '3', '4', '5', '6', '7', '8', '9'] := by
  intro n
  induction n using Nat.strong_induction_on with
  | _ n ih =>
    intro c hc
    rw [toDecimal_eq] at hc
    by_cases hn : n < 10
    · rw [if_pos hn] at hc
      interval_cases n <;> simp_all [digitChar]
    · rw [if_neg hn] at hc
      rcases List.mem_append.mp hc with h | h
      · exact ih (n / 10) (Nat.div_lt_self (by omega) (by omega)) c h
      · have hm : n % 10 < 10 := Nat.mod_lt _ (by omega)
        have : c = digitChar (n % 10) := by simpa using h
        subst this
        interval_cases hlt : n % 10 <;> simp [digitChar]

theorem comma_not_mem_toDecimal (n : Nat) : ',' ∉ toDecimal n := by
  intro h
  have := mem_toDecimal_digit n ',' h
  simp at this

theorem dash_not_mem_toDecimal (n : Nat) : '-' ∉ toDecimal n := by
  intro h
  have := mem_toDecimal_digit n '-' h
  simp at this

theorem underscore_not_mem_toDecimal (n : Nat) : '_' ∉ toDecimal n := by
  intro h
  have := mem_toDecimal_digit n '_' h
  simp at this

theorem ofDecimal_append_digit (l : List Char) (c : Char) :
    (l ++ [c]).foldl (fun acc c => 10 * acc + charVal c) m =
      10 * (l.foldl (fun acc c => 10 * acc + charVal c) m) + charVal c := by
  rw [List.foldl_append]
  rfl

theorem charVal_digitChar (n : Nat) (h : n < 10) : charVal (digitChar n) = n := by
  interval_cases n <;> simp [digitChar, charVal]

theorem ofDecimal_toDecimal : ∀ n, ofDecimal (toDecimal n) = n := by
  intro n
  induction n using Nat.strong_induction_on with
  | _ n ih =>
    rw [toDecimal_eq]
    by_cases hn : n < 10
    · rw [if_pos hn]
      show 10 * 0 + charVal (digitChar n) = n
      rw [charVal_digitChar n hn]
      omega
    · rw [if_neg hn]
      show ofDecimal (toDecimal (n / 10) ++ [digitChar (n % 10)]) = n
      unfold ofDecimal
      rw [ofDecimal_append_digit]
      have h1 : (toDecimal (n / 10)).foldl (fun acc c => 10 * acc + charVal c) 0
          = n / 10 := ih (n / 10) (Nat.div_lt_self (by omega) (by omega))
      rw [h1, charVal_digitChar (n % 10) (Nat.mod_lt _ (by omega))]
      omega

theorem toDecimal_injective : Function.Injective toDecimal := by
  intro a b h
  have := congrArg ofDecimal h
  rwa [ofDecimal_toDecimal, ofDecimal_toDecimal] at this

theorem intToString_injective : Function.Injective intToString := by
  intro a b h
  unfold intToString at h
  by_cases ha : a < 0 <;> by_cases hb : b < 0
  · rw [if_pos ha, if_pos hb] at h
    have hdata : '-' :: toDecimal a.natAbs = '-' :: toDecimal b.natAbs :=
      congrArg String.data h
    have := toDecimal_injective (List.cons_injective hdata)
    omega
  · rw [if_pos ha, if_neg hb] at h
    have hdata : '-' :: toDecimal a.natAbs = toDecimal b.toNat :=
      congrArg String.data h
    have : '-' ∈ toDecimal b.toNat := by
      rw [← hdata]; exact List.mem_cons_self _ _
    exact absurd this (dash_not_mem_toDecimal _)
  · rw [if_neg ha, if_pos hb] at h
    have hdata : toDecimal a.toNat = '-' :: toDecimal b.natAbs :=
      congrArg String.data h
    have : '-' ∈ toDecimal a.toNat := by
      rw [hdata]; exact List.mem_cons_self _ _
    exact absurd this (dash_not_mem_toDecimal _)
  · rw [if_neg ha, if_neg hb] at h
    have hdata : toDecimal a.toNat = toDecimal b.toNat :=
      congrArg String.data h
    have := toDecimal_injective hdata
    omega

/-! ### Facts about the device key -/

theorem natToString_ne_empty (n : Nat) : natToString n ≠ "" := by
  intro h
  have : toDecimal n = [] := congrArg String.data h
  exact toDecimal_ne_nil n this

theorem getKeyFromDevicesAux_data :
    ∀ (l : List Nat) (acc : String), acc.data ≠ [] →
      (getKeyFromDevicesAux acc l).data = acc.data ++ keyTail l := by
  intro l
  induction l with
  | nil => intro acc h; simp [getKeyFromDevicesAux, keyTail]
  | cons d rest ih =>
    intro acc h
    have hacc : ¬ acc = "" := by
      intro he; apply h; rw [he]
    simp only [getKeyFromDevicesAux, if_neg hacc]
    rw [ih (acc ++ "," ++ natToString d) (by
      show (acc ++ "," ++ natToString d).data ≠ []
      have : (acc ++ "," ++ natToString d).data
          = acc.data ++ [','] ++ toDecimal d := rfl
      rw [this]
      simp [toDecimal_ne_nil])]
    have : (acc ++ "," ++ natToString d).data
        = acc.data ++ [','] ++ toDecimal d := rfl
    rw [this, keyTail]
    simp

theorem getKeyFromDevices_data (l : List Nat) :
    (getKeyFromDevices l).data = keyData l := by
  cases l with
  | nil => rfl
  | cons d rest =>
    have h0 : getKeyFromDevices (d :: rest) = getKeyFromDevicesAux (natToString d) rest := by
      show getKeyFromDevicesAux
          (if ("" : String) = "" then natToString d else "" ++ "," ++ natToString d) rest = _
      rw [if_pos rfl]
    rw [h0, getKeyFromDevicesAux_data rest (natToString d) (toDecimal_ne_nil d)]
    rfl

/-- Splitting a comma-free chunk followed by a comma-or-nothing suffix is
unambiguous. -/
theorem comma_split_unique :
    ∀ (u₁ v₁ u₂ v₂ : List Char), ',' ∉ u₁ → ',' ∉ u₂ →
      (v₁ = [] ∨ ∃ w, v₁ = ',' :: w) → (v₂ = [] ∨ ∃ w, v₂ = ',' :: w) →
      u₁ ++ v₁ = u₂ ++ v₂ → u₁ = u₂ ∧ v₁ = v₂ := by
  intro u₁
  induction u₁ with
  | nil =>
    intro v₁ u₂ v₂ _ hu₂ hv₁ hv₂ heq
    cases u₂ with
    | nil => exact ⟨rfl, heq⟩
    | cons c u₂' =>
      exfalso
      simp only [List.nil_append, List.cons_append] at heq
      rcases hv₁ with h | ⟨w, h⟩
      · subst h; simp at heq
      · subst h
        have : c = ',' := by
          have := congrArg (List.headD · ' ') heq
          simpa using this.symm
        exact hu₂ (this ▸ List.mem_cons_self _ _)
  | cons c u₁' ih =>
    intro v₁ u₂ v₂ hu₁ hu₂ hv₁ hv₂ heq
    cases u₂ with
    | nil =>
      exfalso
      simp only [List.cons_append, List.nil_append] at heq
      rcases hv₂ with h | ⟨w, h⟩
      · subst h; simp at heq
      · subst h
        have : c = ',' := by
          have := congrArg (List.headD · ' ') heq
          simpa using this
        exact hu₁ (this ▸ List.mem_cons_self _ _)
    | cons c' u₂' =>
      simp only [List.cons_append, List.cons.injEq] at heq
      obtain ⟨hc, htail⟩ := heq
      have hu₁' : ',' ∉ u₁' := fun h => hu₁ (List.mem_cons_of_mem _ h)
      have hu₂' : ',' ∉ u₂' := fun h => hu₂ (List.mem_cons_of_mem _ h)
      obtain ⟨he, hv⟩ := ih v₁ u₂' v₂ hu₁' hu₂' hv₁ hv₂ htail
      exact ⟨by rw [hc, he], hv⟩

theorem keyTail_shape (l : List Nat) : keyTail l = [] ∨ ∃ w, keyTail l = ',' :: w := by
  cases l with
  | nil => exact Or.inl rfl
  | cons d rest => exact Or.inr ⟨toDecimal d ++ keyTail rest, rfl⟩

theorem keyTail_injective : ∀ l₁ l₂, keyTail l₁ = keyTail l₂ → l₁ = l₂ := by
  intro l₁
  induction l₁ with
  | nil =>
    intro l₂ h
    cases l₂ with
    | nil => rfl
    | cons d rest => simp [keyTail] at h
  | cons d rest ih =>
    intro l₂ h
    cases l₂ with
    | nil => simp [keyTail] at h
    | cons d' rest' =>
      have h2 : toDecimal d ++ keyTail rest = toDecimal d' ++ keyTail rest' := by
        simp only [keyTail, List.cons.injEq] at h
        exact h.2
      obtain ⟨he, hv⟩ := comma_split_unique (toDecimal d) (keyTail rest)
        (toDecimal d') (keyTail rest')
        (comma_not_mem_toDecimal d) (comma_not_mem_toDecimal d')
        (keyTail_shape rest) (keyTail_shape rest') h2
      rw [toDecimal_injective he, ih rest' hv]

theorem keyData_injective : ∀ l₁ l₂, keyData l₁ = keyData l₂ → l₁ = l₂ := by
  intro l₁ l₂ h
  cases l₁ with
  | nil =>
    cases l₂ with
    | nil => rfl
    | cons d rest =>
      exfalso
      have : toDecimal d ++ keyTail rest = [] := h.symm
      rcases List.append_eq_nil.mp this with ⟨h1, _⟩
      exact toDecimal_ne_nil d h1

  | cons d rest =>
    cases l₂ with
    | nil =>
      exfalso
      have : toDecimal d ++ keyTail rest = [] := h
      rcases List.append_eq_nil.mp this with ⟨h1, _⟩
      exact toDecimal_ne_nil d h1
    | cons d' rest' =>
      have h2 : toDecimal d ++ keyTail rest = toDecimal d' ++ keyTail rest' := h
      obtain ⟨he, hv⟩ := comma_split_unique (toDecimal d) (keyTail rest)
        (toDecimal d') (keyTail rest')
        (comma_not_mem_toDecimal d) (comma_not_mem_toDecimal d')
        (keyTail_shape rest) (keyTail_shape rest') h2
      rw [toDecimal_injective he, keyTail_injective rest rest' hv]

theorem getKeyFromDevices_injective : Function.Injective getKeyFromDevices := by
  intro l₁ l₂ h
  exact keyData_injective l₁ l₂ (by
    rw [← getKeyFromDevices_data, ← getKeyFromDevices_data, h])

theorem getKeyFromDevices_ne_empty (d : Nat) (rest : List Nat) :
    getKeyFromDevices (d :: rest) ≠ "" := by
  intro h
  have : keyData (d :: rest) = [] := by
    rw [← getKeyFromDevices_data, h]
  have h2 : toDecimal d ++ keyTail rest = [] := this
  rcases List.append_eq_nil.mp h2 with ⟨h1, _⟩
  exact toDecimal_ne_nil d h1

/-! ### tensorCheckHelper versus the spec-ordered check list -/

theorem head_append_ite (c : Prop) [Decidable c] (m : String) (l : List String) :
    ((if c then [m] else []) ++ l).head? = if c then some m else l.head? := by
  by_cases h : c <;> simp [h]

theorem tensorCheckLoop_eq_pairChecks (n0 : Nat) (t0 : ScalarType) (r : Nat) :
    ∀ (pairs : List (Tensor × Tensor)) (used prior : List Nat),
      (∀ x, x ∈ used ↔ x ∈ prior) →
      tensorCheckLoop n0 t0 r used pairs =
        (match (pairChecks n0 t0 r prior pairs).head? with
         | some msg => Except.error msg
         | none => Except.ok ()) := by
  intro pairs
  induction pairs with
  | nil => intro used prior h; rfl
  | cons p rest ih =>
    intro used prior h
    obtain ⟨inp, outp⟩ := p
    have hdup : (inp.get_device ∈ used) ↔ (inp.get_device ∈ prior) := h _
    simp only [tensorCheckLoop, pairChecks, bufferChecks, List.append_assoc,
      head_append_ite]
    by_cases h1 : (!(inp.is_cuda && !inp.is_sparse && outp.is_cuda && !outp.is_sparse)) = true
    · simp only [if_pos h1]
    · simp only [if_neg h1]
      by_cases h2 : inp.scalarType ≠ t0 ∨ outp.scalarType ≠ t0
      · simp only [if_pos h2]
      · simp only [if_neg h2]
        by_cases h3 : inp.numel ≠ n0
        · simp only [if_pos h3]
        · simp only [if_neg h3]
          by_cases h4 : outp.numel ≠ n0 * r
          · simp only [if_pos h4]
          · simp only [if_neg h4]
            by_cases h5 : (!inp.is_contiguous || !outp.is_contiguous) = true
            · simp only [if_pos h5]
            · simp only [if_neg h5]
              by_cases h6 : inp.get_device ∈ prior
              · simp only [if_pos h6, if_pos (hdup.mpr h6)]
              · simp only [if_neg h6, if_neg (fun hx => h6 (hdup.mp hx))]
                by_cases h7 : inp.get_device ≠ outp.get_device
                · simp only [if_pos h7]
                · simp only [if_neg h7]
                  exact ih (inp.get_device :: used) (prior ++ [inp.get_device])
                    (by
                      intro x
                      simp only [List.mem_cons, List.mem_append,
                        List.mem_singleton, h x]
                      tauto)

theorem tensorCheckHelper_eq_spec (nd : Nat) (input output : List Tensor)
    (r : Nat) :
    tensorCheckHelper nd input output r = tensorCheckSpec nd input output r := by
  by_cases hl : input.length ≠ output.length
  · unfold tensorCheckHelper tensorCheckSpec violatedChecks sequenceChecks
    simp [hl]
  · push_neg at hl
    cases input with
    | nil =>
      unfold tensorCheckHelper tensorCheckSpec violatedChecks sequenceChecks
      simp [← hl]
    | cons inp0 tl =>
      unfold tensorCheckHelper tensorCheckSpec violatedChecks sequenceChecks
      dsimp only
      by_cases hnd : (inp0 :: tl).length > nd
      · have h1 : nd < output.length := by rw [← hl]; exact hnd
        have h2 : output ≠ [] := by
          intro he
          rw [he] at hl
          simp at hl
        simp [hl, hnd, h1, h2]
      · rw [if_neg (show ¬((inp0 :: tl).length ≠ output.length) by simp [hl]),
          if_neg hnd,
          if_neg (show ¬((inp0 :: tl).length ≠ output.length) by simp [hl]),
          if_neg (show ¬((inp0 :: tl).length = 0) by simp),
          if_neg hnd]
        simp only [List.nil_append]
        exact tensorCheckLoop_eq_pairChecks inp0.numel inp0.scalarType r
          ((inp0 :: tl).zip output) [] [] (fun x => Iff.rfl)

/-! ### The duplicate-device behaviour on otherwise valid inputs -/

theorem tensorCheckLoop_good (n0 : Nat) (t0 : ScalarType) (r : Nat) :
    ∀ (pairs : List (Tensor × Tensor)) (used : List Nat),
      (∀ p ∈ pairs, goodPair n0 t0 r p) →
      tensorCheckLoop n0 t0 r used pairs =
        if (pairs.map fun p => p.1.get_device).Nodup ∧
            (∀ d ∈ pairs.map (fun p => p.1.get_device), d ∉ used) then
          Except.ok () else Except.error msgDupDev := by
  intro pairs
  induction pairs with
  | nil => intro used h; simp [tensorCheckLoop]
  | cons p rest ih =>
    intro used h
    obtain ⟨inp, outp⟩ := p
    obtain ⟨hcuda, hty1, hty2, hn1, hn2, hc1, hc2, hdev⟩ :=
      h (inp, outp) (List.mem_cons_self _ _)
    dsimp only at hcuda hty1 hty2 hn1 hn2 hc1 hc2 hdev
    have hrest : ∀ p ∈ rest, goodPair n0 t0 r p :=
      fun p hp => h p (List.mem_cons_of_mem _ hp)
    simp only [tensorCheckLoop]
    rw [if_neg (by simp [hcuda]), if_neg (by simp [hty1, hty2]),
      if_neg (by simp [hn1]), if_neg (by simp [hn2]),
      if_neg (by
        simp only [Bool.not_eq_true]
        simp [hc1, hc2]),
      ]
    by_cases hd : inp.get_device ∈ used
    · rw [if_pos hd, if_neg (by
        intro hcon
        exact (hcon.2 inp.get_device (by simp)) hd)]
    · rw [if_neg hd, if_neg (by simp [hdev]), ih (inp.get_device :: used) hrest]
      by_cases hnodup : (rest.map fun p => p.1.get_device).Nodup
      · by_cases hmem : inp.get_device ∈ rest.map fun p => p.1.get_device
        · rw [if_neg (by
            intro hcon
            exact (hcon.2 inp.get_device (by simp [hmem]) : _) (by simp)),
            if_neg (by
            intro hcon
            simp only [List.map_cons, List.nodup_cons] at hcon
            exact hcon.1.1 hmem)]
        · by_cases hall : ∀ d ∈ rest.map fun p => p.1.get_device, d ∉ used
          · rw [if_pos ⟨hnodup, by
              intro d hdm
              simp only [List.mem_cons]
              intro hor
              rcases hor with h1 | h1
              · exact hmem (h1 ▸ hdm)
              · exact hall d hdm h1⟩,
              if_pos ⟨by simp [hnodup, hmem], by
              intro d hdm
              simp only [List.map_cons, List.mem_cons] at hdm
              rcases hdm with h1 | h1
              · rw [h1]; exact hd
              · exact hall d h1⟩]
          · rw [if_neg (by
              intro hcon
              exact hall (fun d hdm hdu => hcon.2 d hdm (by simp [hdu]))),
              if_neg (by
              intro hcon
              exact hall (fun d hdm hdu =>
                hcon.2 d (by simp [hdm]) hdu))]
      · rw [if_neg (fun hcon => hnodup hcon.1), if_neg (by
          intro hcon
          simp only [List.map_cons, List.nodup_cons] at hcon
          exact hnodup hcon.1.2)]

/-! ### Work-handle polling lemmas -/

theorem queryLoop_ok_true_iff (status : CUDAEvent → EventStatus) :
    ∀ evs : List CUDAEvent,
      queryLoop status evs = .ok true ↔ ∀ e ∈ evs, status e = .success := by
  intro evs
  induction evs with
  | nil => simp [queryLoop]
  | cons e rest ih =>
    simp only [queryLoop]
    cases hs : status e with
    | success => simp [hs, ih]
    | notReady => simp [hs]
    | failure c => simp [hs]

theorem queryLoop_ok_false (status : CUDAEvent → EventStatus) :
    ∀ evs : List CUDAEvent, queryLoop status evs = .ok false →
      ∃ e ∈ evs, status e = .notReady := by
  intro evs
  induction evs with
  | nil => intro h; simp [queryLoop] at h
  | cons e rest ih =>
    intro h
    simp only [queryLoop] at h
    cases hs : status e with
    | success =>
      rw [hs] at h
      obtain ⟨e', he', hs'⟩ := ih h
      exact ⟨e', List.mem_cons_of_mem _ he', hs'⟩
    | notReady => exact ⟨e, List.mem_cons_self _ _, hs⟩
    | failure c => rw [hs] at h; simp at h

theorem queryLoop_error (status : CUDAEvent → EventStatus) :
    ∀ (evs : List CUDAEvent) (c : Nat), queryLoop status evs = .error c →
      ∃ e ∈ evs, status e = .failure c := by
  intro evs
  induction evs with
  | nil => intro c h; simp [queryLoop] at h
  | cons e rest ih =>
    intro c h
    simp only [queryLoop] at h
    cases hs : status e with
    | success =>
      rw [hs] at h
      obtain ⟨e', he', hs'⟩ := ih c h
      exact ⟨e', List.mem_cons_of_mem _ he', hs'⟩
    | notReady => rw [hs] at h; simp at h
    | failure c' =>
      rw [hs] at h
      have : c' = c := by injection h
      exact ⟨e, List.mem_cons_self _ _, by rw [hs, this]⟩

/-! ### Communicator-cache lemmas -/

theorem alookup_mem {α : Type} :
    ∀ (m : List (String × α)) (k : String) (v : α),
      alookup m k = some v → (k, v) ∈ m := by
  intro m
  induction m with
  | nil => intro k v h; simp [alookup] at h
  | cons p rest ih =>
    intro k v h
    obtain ⟨k', v'⟩ := p
    simp only [alookup] at h
    by_cases he : k' = k
    · rw [if_pos he] at h
      have hv : v' = v := by injection h
      subst he
      subst hv
      exact List.mem_cons_self _ _
    · rw [if_neg he] at h
      exact List.mem_cons_of_mem _ (ih k v h)

theorem getNCCLComm_ok_cases (pg : PGConfig) (s : PGState) (key : String)
    (devices : List Nat) (s' : PGState) (comms : List NCCLComm)
    (h : getNCCLComm pg s key devices = .ok (s', comms)) :
    key ≠ "" ∧
    ((alookup s.devNCCLCommMap key = some comms ∧ s' = s) ∨
     (alookup s.devNCCLCommMap key = none ∧
      s'.devNCCLCommMap = ainsert s.devNCCLCommMap key comms ∧
      ∃ id, comms = (List.range devices.length).map fun i =>
        NCCLComm.create (pg.size * devices.length)
          (pg.rank * devices.length + i) id)) := by
  unfold getNCCLComm at h
  by_cases hk : key = ""
  · rw [if_pos hk] at h
    exact absurd h (by simp)
  · rw [if_neg hk] at h
    refine ⟨hk, ?_⟩
    cases hc : alookup s.devNCCLCommMap key with
    | some cached =>
      rw [hc] at h
      left
      obtain ⟨h1, h2⟩ : s = s' ∧ cached = comms := by
        simpa using h
      subst h2
      exact ⟨rfl, h1.symm⟩
    | none =>
      rw [hc] at h
      right
      refine ⟨rfl, ?_⟩
      rcases hbr : broadcastUniqueNCCLID pg.rank pg.processGroupID
          s.uniqueNCCLIDCnt s.store
          (if pg.rank = 0 then pg.generatedID else pg.uninitID) with
        ⟨cnt, skey, outcome⟩
      rw [hbr] at h
      cases outcome with
      | blocked => simp at h
      | lengthError => simp at h
      | setToken store id =>
        unfold finishCreate at h
        simp only [CallResult.ok.injEq, Prod.mk.injEq] at h
        obtain ⟨hstate, hcomms⟩ := h
        refine ⟨?_, id, hcomms.symm⟩
        rw [← hstate, ← hcomms]
      | gotToken id =>
        unfold finishCreate at h
        simp only [CallResult.ok.injEq, Prod.mk.injEq] at h
        obtain ⟨hstate, hcomms⟩ := h
        refine ⟨?_, id, hcomms.symm⟩
        rw [← hstate, ← hcomms]

theorem reachable_cacheWF {s : PGState} (h : Reachable s) : cacheWF s := by
  induction h with
  | init store =>
    intro kv hkv
    simp [initPGState] at hkv
  | @step s s' pg devices comms h1 h2 ih =>
    obtain ⟨hk, hcases⟩ := getNCCLComm_ok_cases _ _ _ _ _ _ h2
    rcases hcases with ⟨_, rfl⟩ | ⟨hnone, hmap, id, hcomms⟩
    · exact ih
    · intro kv hkv
      rw [hmap] at hkv
      rcases List.mem_append.mp hkv with hm | hm
      · exact ih kv hm
      · have hkv2 : kv = (getKeyFromDevices devices, comms) := by
          simpa using hm
        subst hkv2
        refine ⟨devices, ?_, rfl, ?_⟩
        · intro hdev
          subst hdev
          exact hk rfl
        · rw [hcomms]
          simp

theorem cache_hit_key_ne_empty {s : PGState} (h : Reachable s) {key : String}
    {comms : List NCCLComm}
    (hl : alookup s.devNCCLCommMap key = some comms) : key ≠ "" := by
  obtain ⟨devs, hne, hkey, _⟩ := reachable_cacheWF h _ (alookup_mem _ _ _ hl)
  cases devs with
  | nil => exact absurd rfl hne
  | cons d rest =>
    intro hcon
    exact getKeyFromDevices_ne_empty d rest (by rw [← hkey]; exact hcon)

theorem cache_entry_length {s : PGState} (h : Reachable s) {devices : List Nat}
    {comms : List NCCLComm}
    (hl : alookup s.devNCCLCommMap (getKeyFromDevices devices) = some comms) :
    comms.length = devices.length := by
  obtain ⟨devs, _, hkey, hlen⟩ := reachable_cacheWF h _ (alookup_mem _ _ _ hl)
  have hdevs : devs = devices := getKeyFromDevices_injective hkey.symm
  subst hdevs
  exact hlen

theorem getNCCLComm_ok_length {pg : PGConfig} {s s' : PGState}
    {devices : List Nat} {comms : List NCCLComm} (hr : Reachable s)
    (h : getNCCLComm pg s (getKeyFromDevices devices) devices = .ok (s', comms)) :
    comms.length = devices.length := by
  obtain ⟨_, hcases⟩ := getNCCLComm_ok_cases _ _ _ _ _ _ h
  rcases hcases with ⟨hl, _⟩ | ⟨_, _, id, hcomms⟩
  · exact cache_entry_length hr hl
  · rw [hcomms]
    simp

/-! ### Dispatch-loop lemmas -/

theorem buildAllReduceCalls_ok (redOp : NcclRedOp) :
    ∀ (pairs : List (Tensor × NCCLComm)) (calls : List AllReduceCall),
      buildAllReduceCalls redOp pairs = .ok calls →
      calls.length = pairs.length ∧
      ∀ i (h : i < calls.length) (h' : i < pairs.length),
        (calls.get ⟨i, h⟩).sendbuff = ((pairs.get ⟨i, h'⟩).1).data_ptr ∧
        (calls.get ⟨i, h⟩).recvbuff = ((pairs.get ⟨i, h'⟩).1).data_ptr ∧
        (calls.get ⟨i, h⟩).count = ((pairs.get ⟨i, h'⟩).1).numel := by
  intro pairs
  induction pairs with
  | nil =>
    intro calls h
    simp only [buildAllReduceCalls] at h
    injection h with hc
    subst hc
    exact ⟨rfl, fun i h h' => absurd h (by simp)⟩
  | cons p rest ih =>
    intro calls h
    obtain ⟨t, c⟩ := p
    simp only [buildAllReduceCalls] at h
    cases hdt : getNcclDataType t.scalarType with
    | error e => rw [hdt] at h; simp at h
    | ok dt =>
      rw [hdt] at h
      cases hb : buildAllReduceCalls redOp rest with
      | error e => rw [hb] at h; simp at h
      | ok calls' =>
        rw [hb] at h
        injection h with hc
        subst hc
        obtain ⟨hlen, hfields⟩ := ih calls' hb
        refine ⟨by simp [hlen], ?_⟩
        intro i hi hi'
        cases i with
        | zero => exact ⟨rfl, rfl, rfl⟩
        | succ j =>
          exact hfields j (by simpa using hi) (by simpa using hi')

theorem buildBcastCalls_root (n : Nat) (opts : BroadcastOptions) :
    ∀ (pairs : List (Tensor × NCCLComm)) (calls : List BcastCall),
      buildBcastCalls n opts pairs = .ok calls →
      ∀ c ∈ calls, c.root = opts.rootRank * n + opts.rootTensor := by
  intro pairs
  induction pairs with
  | nil =>
    intro calls h c hc
    simp only [buildBcastCalls] at h
    injection h with hcalls
    subst hcalls
    simp at hc
  | cons p rest ih =>
    intro calls h c hc
    obtain ⟨t, cm⟩ := p
    simp only [buildBcastCalls] at h
    cases hdt : getNcclDataType t.scalarType with
    | error e => rw [hdt] at h; simp at h
    | ok dt =>
      rw [hdt] at h
      cases hb : buildBcastCalls n opts rest with
      | error e => rw [hb] at h; simp at h
      | ok calls' =>
        rw [hb] at h
        injection h with hcalls
        subst hcalls
        rcases List.mem_cons.mp hc with rfl | hm
        · rfl
        · exact ih calls' hb c hm

/-! ### Store-key lemmas -/

theorem storeKeyOf_inj (gid : String) (c₁ c₂ : Int)
    (h : storeKeyOf gid c₁ = storeKeyOf gid c₂) : c₁ = c₂ := by
  have hd : (gid.data ++ ['_']) ++ (intToString c₁).data
      = (gid.data ++ ['_']) ++ (intToString c₂).data := congrArg String.data h
  have hs : (intToString c₁).data = (intToString c₂).data :=
    List.append_cancel_left hd
  exact intToString_injective (String.ext hs)

/-! ### Group-tracking lemmas -/

theorem runTrace_counter_lt :
    ∀ (events : List PGEvent) (g : GlobalState),
      ∀ gid ∈ (runTrace g events).2, g.processGroupCounter < gid := by
  intro events
  induction events with
  | nil => intro g gid h; simp [runTrace] at h
  | cons e rest ih =>
    intro g gid h
    cases e with
    | construct =>
      simp only [runTrace, constructPG] at h
      rcases List.mem_cons.mp h with rfl | hm
      · omega
      · have := ih ({ processGroupCounter := g.processGroupCounter + 1,
                      pgUniqueNCCLIDCnt :=
                        (g.processGroupCounter + 1, -1) :: g.pgUniqueNCCLIDCnt } :
            GlobalState) gid hm
        simp only at this
        omega
    | destroy gid' =>
      simp only [runTrace] at h
      have := ih (destroyPG g gid') gid h
      simpa [destroyPG] using this

theorem runTrace_pairwise :
    ∀ (events : List PGEvent) (g : GlobalState),
      List.Pairwise (· < ·) (runTrace g events).2 := by
  intro events
  induction events with
  | nil => intro g; simp [runTrace]
  | cons e rest ih =>
    intro g
    cases e with
    | construct =>
      simp only [runTrace, constructPG]
      refine List.pairwise_cons.mpr ⟨?_, ih _⟩
      intro gid hm
      have := runTrace_counter_lt rest
        ({ processGroupCounter := g.processGroupCounter + 1,
           pgUniqueNCCLIDCnt :=
             (g.processGroupCounter + 1, -1) :: g.pgUniqueNCCLIDCnt } : GlobalState)
        gid hm
      simpa using this
    | destroy gid' =>
      simp only [runTrace]
      exact ih _

theorem zip_get_fst {α β : Type} (l₁ : List α) (l₂ : List β) (i : Nat)
    (h : i < (l₁.zip l₂).length) (h₁ : i < l₁.length) :
    ((l₁.zip l₂).get ⟨i, h⟩).1 = l₁.get ⟨i, h₁⟩ := by
  simp [List.get_eq_getElem, List.getElem_zip]

/-! # Claims -/

/-- C1 (amended): `isCompleted()` unconditionally returns true — the
NCCL kernels are already queued once the Work handle exists. The
non-blocking poll of every owned completion event the claim describes
is `finishedGPUExecution()`: it answers true exactly when every owned
event reports ready, answers false only when some owned event is still
pending, and a genuine device/runtime query failure is raised
immediately (here: the error code) rather than being encoded in the
boolean result. -/
theorem claim_C1 :
    (∀ w : WorkNCCL, w.isCompleted = true) ∧
    (∀ (w : WorkNCCL) (status : CUDAEvent → EventStatus),
      (w.finishedGPUExecution status = .ok true ↔
        ∀ e ∈ w.cudaEvents, status e = .success) ∧
      (w.finishedGPUExecution status = .ok false →
        ∃ e ∈ w.cudaEvents, status e = .notReady) ∧
      (∀ c, w.finishedGPUExecution status = .error c →
        ∃ e ∈ w.cudaEvents, status e = .failure c)) :=
  ⟨fun _ => rfl,
   fun w status =>
    ⟨queryLoop_ok_true_iff status w.cudaEvents,
     queryLoop_ok_false status w.cudaEvents,
     fun c => queryLoop_error status w.cudaEvents c⟩⟩

/-- Counterexample to C1 as stated: a Work whose only event is still
pending (the genuine poll answers false) while `isCompleted()` returns
true, not false — `isCompleted` is not the poll the claim describes. -/
theorem claim_C1_counterexample :
    (WorkNCCL.mk [0]).finishedGPUExecution (fun _ => .notReady) = .ok false ∧
    (WorkNCCL.mk [0]).isCompleted = true :=
  ⟨rfl, rfl⟩

/-- Witness for C1: concrete polls on a one-event Work. -/
theorem claim_C1_witness :
    (WorkNCCL.mk [0]).finishedGPUExecution (fun _ => .success) = .ok true ∧
    (∃ e ∈ (WorkNCCL.mk [0]).cudaEvents,
      (fun _ => EventStatus.notReady) e = .notReady) ∧
    (∃ e ∈ (WorkNCCL.mk [0]).cudaEvents,
      (fun _ => EventStatus.failure 77) e = .failure 77) :=
  ⟨(claim_C1.2 (WorkNCCL.mk [0]) (fun _ => .success)).1.mpr (by decide),
   (claim_C1.2 (WorkNCCL.mk [0]) (fun _ => .notReady)).2.1 rfl,
   (claim_C1.2 (WorkNCCL.mk [0]) (fun _ => .failure 77)).2.2 77 rfl⟩

/-- C2: for every key present in the communicator cache of a reachable
process-group state, `getNCCLComm` returns the existing cached entry
with the state unchanged — no communicators, streams, events or
rendezvous exchange are created — so repeated calls with the same key
(and hence with the same ordered device list) yield the identical
cached entry. -/
theorem claim_C2 (pg : PGConfig) (s : PGState) (key : String)
    (devices : List Nat) (comms : List NCCLComm) (hr : Reachable s)
    (hl : alookup s.devNCCLCommMap key = some comms) :
    getNCCLComm pg s key devices = .ok (s, comms) := by
  have hk : key ≠ "" := cache_hit_key_ne_empty hr hl
  unfold getNCCLComm
  rw [if_neg hk, hl]

/-- Witness for C2: after one real creation, the hit returns the cached
entry and the untouched state. -/
theorem claim_C2_witness :
    getNCCLComm pgW s1W "0" [0] = .ok (s1W, [commW]) :=
  claim_C2 pgW s1W "0" [0] [commW]
    (Reachable.step (Reachable.init [])
      (show getNCCLComm pgW (initPGState []) (getKeyFromDevices [0]) [0]
          = .ok (s1W, [commW]) by decide))
    (by decide)

/-- C3: `tensorCheckHelper` performs its checks in exactly the
specified order — the three sequence-level checks, then for each buffer
pair in sequence order the seven per-buffer checks — and the first
violated check determines the error raised (the helper equals the
first-violation reading `tensorCheckSpec`); the ten errors are pairwise
distinct. -/
theorem claim_C3 :
    (∀ (nd : Nat) (input output : List Tensor) (r : Nat),
      tensorCheckHelper nd input output r = tensorCheckSpec nd input output r) ∧
    ([msgLen, msgZero, msgNumDev, msgCudaDense, msgType, msgInNumel,
      msgOutNumel, msgContig, msgDupDev, msgDevMismatch] : List String).Nodup :=
  ⟨tensorCheckHelper_eq_spec, by decide⟩

/-- Counterexample to C4 as stated: two inputs on the same device index
where the second buffer is sparse — validation raises the dense-buffer
error, not the duplicate-device error, so the duplicate-device error is
not raised "regardless of the values of the other fields". -/
theorem claim_C4_counterexample :
    tValid0.get_device = tSparse0.get_device ∧
    tensorCheckHelper 4 [tValid0, tSparse0] [tValid0, tSparse0] 1 =
      .error msgCudaDense ∧
    msgCudaDense ≠ msgDupDev :=
  ⟨rfl, rfl, by decide⟩

/-- C4 (amended): for every input/output sequence pair that passes the
sequence-level checks and whose every buffer pair passes the preceding
per-buffer checks (dense accelerator residency, matching element type
and counts, contiguity, matching input/output device), two input
buffers on the same device index make validation raise the
duplicate-device error. -/
theorem claim_C4 (nd r : Nat) (t0 : Tensor) (rest output : List Tensor)
    (hlen : (t0 :: rest).length = output.length)
    (hnd : (t0 :: rest).length ≤ nd)
    (hgood : ∀ p ∈ (t0 :: rest).zip output, goodPair t0.numel t0.scalarType r p)
    (hdup : ¬ ((t0 :: rest).map Tensor.get_device).Nodup) :
    tensorCheckHelper nd (t0 :: rest) output r = .error msgDupDev := by
  have hfst : (((t0 :: rest).zip output).map fun p => p.1.get_device)
      = (t0 :: rest).map Tensor.get_device := by
    rw [show (fun p : Tensor × Tensor => p.1.get_device)
        = (Tensor.get_device ∘ Prod.fst) from rfl, ← List.map_map,
      List.map_fst_zip _ _ (le_of_eq hlen)]
  unfold tensorCheckHelper
  dsimp only
  rw [if_neg (show ¬((t0 :: rest).length ≠ output.length) by simp [hlen]),
    if_neg (show ¬((t0 :: rest).length > nd) by omega),
    tensorCheckLoop_good t0.numel t0.scalarType r ((t0 :: rest).zip output) []
      hgood,
    if_neg (fun hcon => hdup (hfst ▸ hcon.1))]

/-- Witness for C4: two otherwise valid tensors on device 0. -/
theorem claim_C4_witness :
    tensorCheckHelper 4 [tValid0, tValid0b] [tValid0, tValid0b] 1 =
      .error msgDupDev :=
  claim_C4 4 1 tValid0 [tValid0b] [tValid0, tValid0b] (by decide) (by decide)
    (by decide) (by decide)

/-- C5: the device-set key is a deterministic function of the ordered
device list (`getKeyFromDevices` is a function of exactly that list),
and injective: distinct ordered device lists — distinct orderings or
distinct sets, multi-digit indices included — never produce the same
key string. -/
theorem claim_C5 (l₁ l₂ : List Nat) (h : l₁ ≠ l₂) :
    getKeyFromDevices l₁ ≠ getKeyFromDevices l₂ :=
  fun hc => h (getKeyFromDevices_injective hc)

/-- Witness for C5: the multi-digit lists `[1, 2]` and `[12]` do not
collide. -/
theorem claim_C5_witness :
    getKeyFromDevices [1, 2] ≠ getKeyFromDevices [12] :=
  claim_C5 [1, 2] [12] (by decide)

/-- C6: with the group's sequence counter at `cnt`, every rank computes
the same store key `storeKeyOf gid (cnt + 1)` and the counter advances
to `cnt + 1`: rank 0 sets the token under that key, any other rank gets
that same key and hits the fatal length error exactly when the
retrieved value's length differs from the declared token size; and
distinct sequence numbers always give distinct store keys, so two
communicator-set creations never reuse a key. -/
theorem claim_C6 (gid : String) (cnt c₁ c₂ : Int)
    (store : List (String × List Nat)) (id v : List Nat) (r : Nat) :
    (broadcastUniqueNCCLID 0 gid cnt store id =
      (cnt + 1, storeKeyOf gid (cnt + 1),
        .setToken (ainsert store (storeKeyOf gid (cnt + 1)) id) id)) ∧
    (r ≠ 0 →
      alookup store (storeKeyOf gid (cnt + 1)) = some v →
      broadcastUniqueNCCLID r gid cnt store id =
        (cnt + 1, storeKeyOf gid (cnt + 1),
          if v.length ≠ NCCL_UNIQUE_ID_BYTES then .lengthError
          else .gotToken v)) ∧
    (c₁ ≠ c₂ → storeKeyOf gid c₁ ≠ storeKeyOf gid c₂) := by
  refine ⟨?_, ?_, ?_⟩
  · simp [broadcastUniqueNCCLID]
  · intro hrk hlook
    simp only [broadcastUniqueNCCLID]
    rw [if_neg hrk, hlook]
    by_cases hv : v.length ≠ NCCL_UNIQUE_ID_BYTES
    · simp [hv]
    · simp [hv]
  · intro hne hc
    exact hne (storeKeyOf_inj gid c₁ c₂ hc)

/-- Witness for C6: a concrete set, a concrete get of a short value
hitting the length error, and two concrete distinct keys. -/
theorem claim_C6_witness :
    broadcastUniqueNCCLID 0 "0" (-1) [] idW =
      (0, "0_0", .setToken [("0_0", idW)] idW) ∧
    broadcastUniqueNCCLID 1 "0" (-1) [("0_0", List.replicate 5 9)] idW =
      (0, "0_0", .lengthError) ∧
    storeKeyOf "0" 0 ≠ storeKeyOf "0" 1 :=
  ⟨(claim_C6 "0" (-1) 0 1 [] idW idW 1).1,
   (claim_C6 "0" (-1) 0 1 [("0_0", List.replicate 5 9)] idW
      (List.replicate 5 9) 1).2.1 (by decide) (by decide),
   (claim_C6 "0" (-1) 0 1 [] idW idW 1).2.2 (by decide)⟩

/-- C7: on a cache miss, the i-th of the n communicators created by
rank r in a group of s ranks has global participant rank `r * n + i`
and global participant count `s * n`; and every `ncclBcast` issued by
`broadcast` uses root participant
`rootRank * tensors.length + rootTensor`. -/
theorem claim_C7 (pg : PGConfig) (s : PGState) (key : String)
    (devices : List Nat) (s' : PGState) (comms : List NCCLComm)
    (tensors : List Tensor) (opts : BroadcastOptions) (s'' : PGState)
    (calls : List BcastCall) (work : WorkNCCL) :
    (alookup s.devNCCLCommMap key = none →
      getNCCLComm pg s key devices = .ok (s', comms) →
      comms.length = devices.length ∧
      ∀ i (h : i < comms.length),
        (comms.get ⟨i, h⟩).numRanks = pg.size * devices.length ∧
        (comms.get ⟨i, h⟩).rank = pg.rank * devices.length + i) ∧
    (broadcast pg s tensors opts = .ok (s'', calls, work) →
      ∀ c ∈ calls, c.root = opts.rootRank * tensors.length + opts.rootTensor) := by
  constructor
  · intro hnone hok
    obtain ⟨_, hcases⟩ := getNCCLComm_ok_cases _ _ _ _ _ _ hok
    rcases hcases with ⟨hsome, _⟩ | ⟨_, _, id, hcomms⟩
    · rw [hnone] at hsome
      exact absurd hsome (by simp)
    · subst hcomms
      refine ⟨by simp, ?_⟩
      intro i hi
      have hi' : i < devices.length := by simpa using hi
      constructor
      · simp [List.get_eq_getElem, NCCLComm.create]
      · simp [List.get_eq_getElem, NCCLComm.create]
  · intro hok c hc
    unfold broadcast at hok
    cases hchk : tensorCheckHelper pg.numDevices tensors tensors 1 with
    | error e => rw [hchk] at hok; exact absurd hok (by simp)
    | ok u =>
      cases u
      rw [hchk] at hok
      dsimp only at hok
      cases hcomm : getNCCLComm pg s
          (getKeyFromDevices (getDevicesOfTensors tensors))
          (getDevicesOfTensors tensors) with
      | blocked => rw [hcomm] at hok; exact absurd hok (by simp)
      | err e => rw [hcomm] at hok; exact absurd hok (by simp)
      | ok pr =>
        obtain ⟨s1, comms1⟩ := pr
        rw [hcomm] at hok
        dsimp only at hok
        cases hbuild : buildBcastCalls tensors.length opts
            (tensors.zip comms1) with
        | error e => rw [hbuild] at hok; exact absurd hok (by simp)
        | ok calls1 =>
          rw [hbuild] at hok
          simp only [CallResult.ok.injEq, Prod.mk.injEq] at hok
          obtain ⟨hs, hcalls, hwork⟩ := hok
          subst hcalls
          exact buildBcastCalls_root tensors.length opts
            (tensors.zip comms1) calls1 hbuild c hc

set_option maxRecDepth 4000 in
/-- Witness for C7: rank 1 of a 2-rank group creating communicators for
two devices (participant ranks 2 and 3, count 4), and a concrete
broadcast call using root 0 x 1 + 0. -/
theorem claim_C7_witness :
    (commsW2.get ⟨1, by decide⟩).numRanks = 4 ∧
    (commsW2.get ⟨1, by decide⟩).rank = 3 ∧
    bcCallW.root = 0 * 1 + 0 :=
  ⟨(((claim_C7 pgW2 s0W2 "0,1" [0, 1] s2W commsW2 [] ⟨0, 0⟩ s2W []
        (WorkNCCL.mk [])).1 (by decide) (by decide)).2 1 (by decide)).1,
   (((claim_C7 pgW2 s0W2 "0,1" [0, 1] s2W commsW2 [] ⟨0, 0⟩ s2W []
        (WorkNCCL.mk [])).1 (by decide) (by decide)).2 1 (by decide)).2,
   (claim_C7 pgW (initPGState []) "" [] s1W [] [tValid0] ⟨0, 0⟩ s1W
      [bcCallW] (WorkNCCL.mk [0])).2 (by decide) bcCallW (by decide)⟩

/-- C8: `wait()` performs exactly `synchronize()`'s stream edges and
unconditionally returns true; the success accessor always returns true;
and the exception accessor raises the "not supported" error instead of
returning a captured failure. -/
theorem claim_C8 (w : WorkNCCL) :
    w.wait = (w.synchronize, true) ∧ w.isSuccess = true ∧
    ∃ msg, w.exceptionAccessor = .error msg :=
  ⟨rfl, rfl, ⟨_, rfl⟩⟩

/-- C9: each constructor increments the process-wide counter under the
tracking lock and takes the new value as the group id; destruction
never changes the counter; and along any construction/destruction trace
from the initial state the assigned group ids are strictly increasing
in construction order — in particular no id is ever reassigned. -/
theorem claim_C9 :
    (∀ g : GlobalState, (constructPG g).2 = g.processGroupCounter + 1 ∧
      (constructPG g).1.processGroupCounter = g.processGroupCounter + 1) ∧
    (∀ (g : GlobalState) (gid : Int),
      (destroyPG g gid).processGroupCounter = g.processGroupCounter) ∧
    (∀ events : List PGEvent,
      List.Pairwise (· < ·) (runTrace initGlobalState events).2) :=
  ⟨fun _ => ⟨rfl, rfl⟩, fun _ _ => rfl,
   fun events => runTrace_pairwise events initGlobalState⟩

/-- C10: `allreduce` validates the caller's tensor sequence against
itself with ratio 1 — any validation error is surfaced unchanged, and
success implies the self-validation passed — and every issued
per-device primitive call passes the same tensor's data pointer as both
source and destination buffer. -/
theorem claim_C10 (pg : PGConfig) (s : PGState) (tensors : List Tensor)
    (opts : AllreduceOptions) (hr : Reachable s) :
    (∀ e, tensorCheckHelper pg.numDevices tensors tensors 1 = .error e →
      allreduce pg s tensors opts = .err e) ∧
    (∀ (s' : PGState) (calls : List AllReduceCall) (work : WorkNCCL),
      allreduce pg s tensors opts = .ok (s', calls, work) →
      tensorCheckHelper pg.numDevices tensors tensors 1 = .ok () ∧
      calls.length = tensors.length ∧
      ∀ i (h : i < calls.length) (h' : i < tensors.length),
        (calls.get ⟨i, h⟩).sendbuff = (tensors.get ⟨i, h'⟩).data_ptr ∧
        (calls.get ⟨i, h⟩).recvbuff = (tensors.get ⟨i, h'⟩).data_ptr) := by
  constructor
  · intro e he
    unfold allreduce
    rw [he]
  · intro s' calls work hok
    unfold allreduce at hok
    cases hchk : tensorCheckHelper pg.numDevices tensors tensors 1 with
    | error e => rw [hchk] at hok; exact absurd hok (by simp)
    | ok u =>
      cases u
      rw [hchk] at hok
      refine ⟨rfl, ?_⟩
      dsimp only at hok
      cases hcomm : getNCCLComm pg s
          (getKeyFromDevices (getDevicesOfTensors tensors))
          (getDevicesOfTensors tensors) with
      | blocked => rw [hcomm] at hok; exact absurd hok (by simp)
      | err e => rw [hcomm] at hok; exact absurd hok (by simp)
      | ok pr =>
        obtain ⟨s1, comms1⟩ := pr
        rw [hcomm] at hok
        dsimp only at hok
        cases hbuild : buildAllReduceCalls (ncclOp opts.reduceOp)
            (tensors.zip comms1) with
        | error e => rw [hbuild] at hok; exact absurd hok (by simp)
        | ok calls1 =>
          rw [hbuild] at hok
          simp only [CallResult.ok.injEq, Prod.mk.injEq] at hok
          obtain ⟨hs, hcalls, hwork⟩ := hok
          subst hcalls
          have hlen1 : comms1.length = (getDevicesOfTensors tensors).length :=
            getNCCLComm_ok_length hr hcomm
          have hlen2 : (getDevicesOfTensors tensors).length = tensors.length := by
            simp [getDevicesOfTensors]
          obtain ⟨hblen, hbf⟩ := buildAllReduceCalls_ok _ _ _ hbuild
          have hzlen : (tensors.zip comms1).length = tensors.length := by
            rw [List.length_zip]
            omega
          refine ⟨by rw [hblen, hzlen], ?_⟩
          intro i hi hi'
          have hiz : i < (tensors.zip comms1).length := by
            rw [hzlen]
            exact hi'
          obtain ⟨h1, h2, h3⟩ := hbf i hi hiz
          exact ⟨by rw [h1, zip_get_fst tensors comms1 i hiz hi'],
            by rw [h2, zip_get_fst tensors comms1 i hiz hi']⟩

/-- Witness for C10: the empty sequence surfaces the zero-buffers
validation error unchanged, and a concrete one-tensor allreduce issues
a call whose source and destination pointers are that tensor's data
pointer. -/
theorem claim_C10_witness :
    allreduce pgW (initPGState []) [] ⟨ReduceOp.SUM⟩ = .err msgZero ∧
    arCallW.sendbuff = tValid0.data_ptr ∧
    arCallW.recvbuff = tValid0.data_ptr :=
  ⟨(claim_C10 pgW (initPGState []) [] ⟨ReduceOp.SUM⟩ (Reachable.init [])).1
      msgZero rfl,
   (((claim_C10 pgW (initPGState []) [tValid0] ⟨ReduceOp.SUM⟩
        (Reachable.init [])).2 s1W [arCallW] (WorkNCCL.mk [0])
        (by decide)).2.2 0 (by decide) (by decide)).1,
   (((claim_C10 pgW (initPGState []) [tValid0] ⟨ReduceOp.SUM⟩
        (Reachable.init [])).2 s1W [arCallW] (WorkNCCL.mk [0])
        (by decide)).2.2 0 (by decide) (by decide)).2⟩

end C10d
